import Mathlib

/-!
Verification of the cli-todo task tracker (src/todo/core.py, src/todo/storage.py)
against its specification.

The persisted file holds one JSON object.  We embed JSON values as an inductive
type; `json.dump` followed by `json.load` is modelled as the identity on these
values (the serialization layer).  Machine-level file-system effects (missing
file, parse failure, permission errors, other I/O errors) are modelled as an
environment the storage functions receive.
-/

namespace Todo

/-- JSON values as read and written by `json.load` / `json.dump`. -/
inductive Json where
  | null
  | bool (b : Bool)
  | num (n : Int)
  | str (s : String)
  | arr (items : List Json)
  | obj (fields : List (String × Json))
deriving Repr

/-- Python dict key lookup on the field list of a JSON object. -/
def jlookup (key : String) (fields : List (String × Json)) : Option Json :=
  (fields.find? (fun kv => kv.1 == key)).map (fun kv => kv.2)

/-- One to-do item, the fixed-shape record behind the task dict built in
`add_task`: id, description, completed, created_at. -/
structure Task where
  id : Int
  description : String
  completed : Bool
  created_at : String
deriving Repr, DecidableEq

/-- The persisted root object: the task list and the id counter. -/
structure Document where
  tasks : List Task
  next_id : Int
deriving Repr, DecidableEq

/-- Serialization of a task dict, as `json.dump` sees it. -/
def taskToJson (t : Task) : Json :=
  .obj [("id", .num t.id), ("description", .str t.description),
        ("completed", .bool t.completed), ("created_at", .str t.created_at)]

/-- Serialization of the root data dict. -/
def documentToJson (d : Document) : Json :=
  .obj [("tasks", .arr (d.tasks.map taskToJson)), ("next_id", .num d.next_id)]

/-- Decoding a task dict back into the fixed-shape record. -/
def jsonToTask (j : Json) : Option Task :=
  match j with
  | .obj kvs =>
    match jlookup "id" kvs, jlookup "description" kvs,
          jlookup "completed" kvs, jlookup "created_at" kvs with
    | some (.num i), some (.str s), some (.bool b), some (.str c) =>
        some ⟨i, s, b, c⟩
    | _, _, _, _ => none
  | _ => none

/-- Decoding a list of task dicts. -/
def jsonToTasks : List Json → Option (List Task)
  | [] => some []
  | j :: js =>
    match jsonToTask j, jsonToTasks js with
    | some t, some ts => some (t :: ts)
    | _, _ => none

/-- Decoding the root object back into a `Document`. -/
def jsonToDocument (j : Json) : Option Document :=
  match j with
  | .obj kvs =>
    match jlookup "tasks" kvs, jlookup "next_id" kvs with
    | some (.arr items), some (.num n) =>
      match jsonToTasks items with
      | some ts => some ⟨ts, n⟩
      | none => none
    | _, _ => none
  | _ => none

/-! ## Storage layer (src/todo/storage.py) -/

/-- What the attempt to read the storage file finds: no file, unparsable
content, parsed JSON content, a permission error, or another I/O error. -/
inductive ReadEnv where
  | missing
  | parseError
  | parsed (j : Json)
  | permissionDenied
  | ioError
deriving Repr

/-- The exceptions the storage layer lets escape to the caller. -/
inductive StorageErr where
  | permissionDenied
  | readFailure
  | writeFailure
deriving Repr, DecidableEq

/-- `_get_default_data`: the default data structure for a new storage file,
`{"tasks": [], "next_id": 1}`. -/
def _get_default_data : Json :=
  .obj [("tasks", .arr []), ("next_id", .num 1)]

/-- The default `Document`, the decoded form of `_get_default_data`. -/
def default_document : Document := ⟨[], 1⟩

/-- The structure validation in `load_data`: `isinstance(data, dict) and
"tasks" in data and "next_id" in data`. -/
def valid_shape (j : Json) : Bool :=
  match j with
  | .obj kvs => (jlookup "tasks" kvs).isSome && (jlookup "next_id" kvs).isSome
  | _ => false

/-- `load_data`: returns the loaded JSON value together with a flag recording
whether the corruption warning was printed, or propagates the exception.
Follows storage.py line by line: missing file → default; parse failure →
warning, default; parsed but wrong shape → warning, default; parsed and
well-shaped → the data verbatim; `PermissionError` and any other exception
are re-raised. -/
def load_data : ReadEnv → Except StorageErr (Bool × Json)
  | .missing => .ok (false, _get_default_data)
  | .parseError => .ok (true, _get_default_data)
  | .parsed j =>
    if valid_shape j then .ok (false, j) else .ok (true, _get_default_data)
  | .permissionDenied => .error .permissionDenied
  | .ioError => .error .readFailure

/-- How the attempt to write the storage file goes: success, a permission
error, or another I/O error. -/
inductive WriteEnv where
  | ok
  | permissionDenied
  | ioError
deriving Repr

/-- `save_data`: on success the canonical file ends up holding exactly the
serialized data; `PermissionError` and any other exception are re-raised. -/
def save_data : WriteEnv → Json → Except StorageErr Json
  | .ok, j => .ok j
  | .permissionDenied, _ => .error .permissionDenied
  | .ioError, _ => .error .writeFailure

/-! ## Core operations (src/todo/core.py)

Each operation loads the document, mutates it in memory and, on the paths
that call `storage.save_data`, writes it back.  We give the per-document
mutation first (an `OpOutcome` recording the returned value, the resulting
document, and whether `save_data` was called), then wrap it with the
storage layer. -/

/-- Result of one core operation on a loaded document: the value returned to
the caller, the document after the in-memory mutation, and whether the
operation called `storage.save_data`. -/
structure OpOutcome (α : Type) where
  ret : α
  doc : Document
  saved : Bool
deriving Repr

/-- `add_task` on the loaded document: builds the task dict from `next_id`,
the given description, `completed = False` and the current timestamp,
appends it, increments `next_id`, saves, and returns the task.
`now` stands for `datetime.now().isoformat()`. -/
def add_task (description : String) (now : String) (d : Document) :
    OpOutcome Task :=
  let t : Task :=
    { id := d.next_id, description := description, completed := false,
      created_at := now }
  { ret := t, doc := { tasks := d.tasks ++ [t], next_id := d.next_id + 1 },
    saved := true }

/-- The `for task in data["tasks"]` loop of `complete_task`: marks the first
task whose id equals `task_id` and stops; `none` when no task matches. -/
def markFirst (task_id : Int) : List Task → Option (List Task)
  | [] => none
  | t :: ts =>
    if t.id == task_id then some ({ t with completed := true } :: ts)
    else (markFirst task_id ts).map (fun ts' => t :: ts')

/-- `complete_task`: sets `completed = True` on the first matching task,
saves and returns `True`; returns `False` without saving when no task
matches. -/
def complete_task (task_id : Int) (d : Document) : OpOutcome Bool :=
  match markFirst task_id d.tasks with
  | some ts => { ret := true, doc := { d with tasks := ts }, saved := true }
  | none => { ret := false, doc := d, saved := false }

/-- `delete_task`: keeps exactly the tasks whose id differs from `task_id`
(the list comprehension); saves and returns `True` when the list shrank,
otherwise returns `False` without saving. -/
def delete_task (task_id : Int) (d : Document) : OpOutcome Bool :=
  let kept := d.tasks.filter (fun t => t.id != task_id)
  if kept.length < d.tasks.length then
    { ret := true, doc := { d with tasks := kept }, saved := true }
  else
    { ret := false, doc := d, saved := false }

/-- `get_task`: the first task whose id matches, if any. -/
def get_task (task_id : Int) (d : Document) : Option Task :=
  d.tasks.find? (fun t => t.id == task_id)

/-- `list_tasks`: all tasks, in stored order. -/
def list_tasks (d : Document) : List Task :=
  d.tasks

/-- The read environment a file state presents: a missing file or its parsed
JSON content. -/
def loadEnv : Option Json → ReadEnv
  | none => .missing
  | some j => .parsed j

/-- One core operation run against the storage file: load the document via
`load_data`, apply the mutation, and write the serialized result back exactly
when the operation calls `save_data`.  `none` marks the runs the embedding
does not model (the loaded value not decoding into a document, on which the
Python dict accesses would raise). -/
def run_op {α : Type} (op : Document → OpOutcome α) (file : Option Json) :
    Option (α × Option Json) :=
  match load_data (loadEnv file) with
  | .error _ => none
  | .ok (_, j) =>
    match jsonToDocument j with
    | none => none
    | some d =>
      let r := op d
      some (r.ret, if r.saved then some (documentToJson r.doc) else file)

/-! ## Operation sequences (for the invariants and id-monotonicity claims) -/

/-- One store-mutating call, as issued by the command layer. -/
inductive Op where
  | add (description : String) (now : String)
  | complete (task_id : Int)
  | delete (task_id : Int)
deriving Repr

/-- The document after one operation (the value written back, or the
unchanged document when the operation does not save). -/
def applyOp (d : Document) : Op → Document
  | .add description now => (add_task description now d).doc
  | .complete task_id => (complete_task task_id d).doc
  | .delete task_id => (delete_task task_id d).doc

/-- The document produced by a sequence of operations starting from the
default document. -/
def run (ops : List Op) : Document :=
  ops.foldl applyOp default_document

/-- Whether an operation is an `add`. -/
def isAdd : Op → Bool
  | .add _ _ => true
  | _ => false

/-- The number of `add` operations in a sequence. -/
def countAdds (ops : List Op) : Nat :=
  ops.countP isAdd

/-- The document invariant: ids in `tasks` are pairwise distinct and every
id is strictly below `next_id`. -/
def wf (d : Document) : Bool :=
  decide (d.tasks.map Task.id).Nodup &&
    d.tasks.all (fun t => decide (t.id < d.next_id))

/-- Propositional form of `wf`. -/
def WFP (d : Document) : Prop :=
  (d.tasks.map Task.id).Nodup ∧ ∀ t ∈ d.tasks, t.id < d.next_id

/-! ## Crash-step model of the atomic save (storage.py, `save_data`)

`save_data` writes the serialized document to `STORAGE_FILE.with_suffix('.tmp')`
— a sibling of the canonical path — and then calls `temp_file.replace(...)`,
the atomic rename.  We model the file system as the content of the canonical
path plus the state of the temporary file, and the save as the sequence of
observable file-system states: before the write, while the temporary file is
being written (possibly interrupted half way), after the temporary file is
complete, and after the rename.  Writing the temporary file never touches the
canonical path, and the rename atomically installs the new content. -/

/-- Content of the temporary file: interrupted mid-write, or fully written. -/
inductive TempContent where
  | halfWritten
  | full (j : Json)
deriving Repr

/-- An observable file-system state during a save: the canonical file's
content (`none` = absent) and the temporary file's content. -/
structure FSState where
  canonical : Option Json
  temp : Option TempContent
deriving Repr

/-- The observable file-system states of one `save_data` run writing `j` over
a canonical file holding `old`, in order: initial state, temporary file
part-way written, temporary file complete, after the atomic rename.  A crash
leaves the file system in one of these states. -/
def save_trace (old : Option Json) (j : Json) : List FSState :=
  [⟨old, none⟩, ⟨old, some .halfWritten⟩, ⟨old, some (.full j)⟩,
   ⟨some j, none⟩]

/-! ## Serialization lemmas -/

theorem jsonToTask_taskToJson (t : Task) : jsonToTask (taskToJson t) = some t :=
  rfl

theorem jsonToTasks_map (ts : List Task) :
    jsonToTasks (ts.map taskToJson) = some ts := by
  induction ts with
  | nil => rfl
  | cons t ts ih => simp [jsonToTasks, jsonToTask_taskToJson, ih]

theorem jsonToDocument_documentToJson (d : Document) :
    jsonToDocument (documentToJson d) = some d := by
  show (match jsonToTasks (d.tasks.map taskToJson) with
        | some ts => some (⟨ts, d.next_id⟩ : Document)
        | none => none) = some d
  rw [jsonToTasks_map]

theorem valid_shape_documentToJson (d : Document) :
    valid_shape (documentToJson d) = true :=
  rfl

theorem load_data_parsed_documentToJson (d : Document) :
    load_data (.parsed (documentToJson d)) = .ok (false, documentToJson d) := by
  simp [load_data, valid_shape_documentToJson]

/-! ## Lemmas on the `complete_task` scan -/

theorem markFirst_eq_none (task_id : Int) (ts : List Task)
    (h : ∀ t ∈ ts, (t.id == task_id) = false) :
    markFirst task_id ts = none := by
  induction ts with
  | nil => rfl
  | cons t ts ih =>
    simp [markFirst, h t (by simp),
      ih fun u hu => h u (List.mem_cons_of_mem _ hu)]

theorem markFirst_append (task_id : Int) (p : List Task) (t : Task)
    (s : List Task) (hp : ∀ u ∈ p, (u.id == task_id) = false)
    (ht : (t.id == task_id) = true) :
    markFirst task_id (p ++ t :: s) =
      some (p ++ { t with completed := true } :: s) := by
  induction p with
  | nil => simp [markFirst, ht]
  | cons u p ih =>
    have hu : (u.id == task_id) = false := hp u (by simp)
    simp [markFirst, hu,
      ih fun v hv => hp v (List.mem_cons_of_mem _ hv)]

theorem markFirst_map_id (task_id : Int) (ts ts' : List Task)
    (h : markFirst task_id ts = some ts') :
    ts'.map Task.id = ts.map Task.id := by
  induction ts generalizing ts' with
  | nil => simp [markFirst] at h
  | cons t ts ih =>
    by_cases hc : (t.id == task_id) = true
    · simp [markFirst, hc] at h
      subst h
      simp
    · simp [markFirst, hc, Option.map_eq_some'] at h
      obtain ⟨us, hus, rfl⟩ := h
      simp [ih us hus]

theorem markFirst_isSome (task_id : Int) (ts : List Task) :
    (markFirst task_id ts).isSome = ts.any (fun t => t.id == task_id) := by
  induction ts with
  | nil => rfl
  | cons t ts ih =>
    by_cases hc : (t.id == task_id) = true
    · simp [markFirst, hc]
    · have h1 : markFirst task_id (t :: ts) =
          (markFirst task_id ts).map (fun ts' => t :: ts') := by
        simp [markFirst, hc]
      rw [h1, List.any_cons]
      cases hm : markFirst task_id ts with
      | none => rw [hm] at ih; simp [hc, ← ih]
      | some us => rw [hm] at ih; simp [hc, ← ih]

/-! ## Running an operation against a stored document -/

theorem run_op_documentToJson {α : Type} (op : Document → OpOutcome α)
    (d : Document) :
    run_op op (some (documentToJson d)) =
      some ((op d).ret,
        if (op d).saved then some (documentToJson (op d).doc)
        else some (documentToJson d)) := by
  simp [run_op, loadEnv, load_data_parsed_documentToJson,
    jsonToDocument_documentToJson]

/-! ## The document invariant -/

theorem wf_iff (d : Document) : wf d = true ↔ WFP d := by
  simp [wf, WFP, List.all_eq_true]

theorem WFP_add (description now : String) (d : Document) (h : WFP d) :
    WFP (add_task description now d).doc := by
  obtain ⟨h1, h2⟩ := h
  refine ⟨?_, ?_⟩
  · simp only [add_task, List.map_append, List.map_cons, List.map_nil,
      List.nodup_append]
    refine ⟨h1, List.nodup_singleton _, ?_⟩
    intro a ha hb
    simp only [List.mem_map] at ha
    obtain ⟨u, hu, rfl⟩ := ha
    simp only [List.mem_singleton] at hb
    have := h2 u hu
    omega
  · intro t ht
    simp only [add_task, List.mem_append, List.mem_singleton] at ht
    rcases ht with ht | rfl
    · have := h2 t ht
      simp only [add_task]
      omega
    · simp [add_task]

theorem WFP_complete (task_id : Int) (d : Document) (h : WFP d) :
    WFP (complete_task task_id d).doc := by
  obtain ⟨h1, h2⟩ := h
  cases hm : markFirst task_id d.tasks with
  | none => exact ⟨by simp [complete_task, hm, h1], by simp [complete_task, hm]; exact h2⟩
  | some ts =>
    have hid := markFirst_map_id task_id d.tasks ts hm
    refine ⟨?_, ?_⟩
    · simp only [complete_task, hm]
      rw [hid]
      exact h1
    · intro t ht
      simp only [complete_task, hm] at ht ⊢
      have hmem : t.id ∈ ts.map Task.id := List.mem_map_of_mem _ ht
      rw [hid] at hmem
      simp only [List.mem_map] at hmem
      obtain ⟨u, hu, he⟩ := hmem
      have := h2 u hu
      omega

theorem WFP_delete (task_id : Int) (d : Document) (h : WFP d) :
    WFP (delete_task task_id d).doc := by
  obtain ⟨h1, h2⟩ := h
  simp only [delete_task]
  by_cases hc :
      (d.tasks.filter (fun t => t.id != task_id)).length < d.tasks.length
  · rw [if_pos hc]
    exact ⟨List.Nodup.sublist (List.Sublist.map _ (List.filter_sublist _)) h1,
      fun t ht => h2 t (List.mem_filter.mp ht).1⟩
  · rw [if_neg hc]
    exact ⟨h1, h2⟩

theorem WFP_applyOp (d : Document) (op : Op) (h : WFP d) :
    WFP (applyOp d op) := by
  cases op with
  | add description now => exact WFP_add description now d h
  | complete task_id => exact WFP_complete task_id d h
  | delete task_id => exact WFP_delete task_id d h

theorem WFP_default : WFP default_document :=
  ⟨by simp [default_document], by simp [default_document]⟩

theorem WFP_foldl (ops : List Op) (d : Document) (h : WFP d) :
    WFP (ops.foldl applyOp d) := by
  induction ops generalizing d with
  | nil => exact h
  | cons op ops ih => exact ih _ (WFP_applyOp d op h)

/-! ## The id counter across operations -/

theorem applyOp_next_id (d : Document) (op : Op) :
    (applyOp d op).next_id = d.next_id + (if isAdd op then 1 else 0) := by
  cases op with
  | add description now => simp [applyOp, add_task, isAdd]
  | complete task_id =>
    cases hm : markFirst task_id d.tasks <;>
      simp [applyOp, complete_task, hm, isAdd]
  | delete task_id =>
    simp only [applyOp, delete_task, isAdd]
    split <;> simp

theorem next_id_foldl (ops : List Op) (d : Document) :
    (ops.foldl applyOp d).next_id = d.next_id + (countAdds ops : Int) := by
  induction ops generalizing d with
  | nil => simp [countAdds]
  | cons op ops ih =>
    rw [List.foldl_cons, ih, applyOp_next_id]
    simp only [countAdds, List.countP_cons]
    cases hop : isAdd op with
    | false => simp [hop]
    | true => simp [hop]; ring

/-! ## Which ids the lookup operations find -/

theorem filter_length_lt_iff (task_id : Int) (ts : List Task) :
    ((ts.filter (fun t => t.id != task_id)).length < ts.length) ↔
      ts.any (fun t => t.id == task_id) = true := by
  rw [List.length_filter_lt_length_iff_exists, List.any_eq_true]
  constructor
  · rintro ⟨x, hx, hpx⟩
    exact ⟨x, hx, by simpa using hpx⟩
  · rintro ⟨x, hx, hpx⟩
    exact ⟨x, hx, by simpa using hpx⟩

theorem complete_task_ret (task_id : Int) (d : Document) :
    (complete_task task_id d).ret = d.tasks.any (fun t => t.id == task_id) := by
  rw [← markFirst_isSome]
  cases hm : markFirst task_id d.tasks <;> simp [complete_task, hm]

theorem delete_task_ret (task_id : Int) (d : Document) :
    (delete_task task_id d).ret = d.tasks.any (fun t => t.id == task_id) := by
  simp only [delete_task]
  by_cases hc :
      (d.tasks.filter (fun t => t.id != task_id)).length < d.tasks.length
  · rw [if_pos hc]
    simp [(filter_length_lt_iff task_id d.tasks).mp hc]
  · rw [if_neg hc]
    have h2 : ¬ d.tasks.any (fun t => t.id == task_id) = true :=
      fun ha => hc ((filter_length_lt_iff task_id d.tasks).mpr ha)
    simp only [Bool.not_eq_true] at h2
    simp [h2]

theorem get_task_isSome (task_id : Int) (d : Document) :
    (get_task task_id d).isSome = d.tasks.any (fun t => t.id == task_id) := by
  rw [Bool.eq_iff_iff, get_task, List.find?_isSome, List.any_eq_true]

/-! ## The claims -/

/-- C1: in every document reachable by a sequence of add/complete/delete
operations starting from the default document, the ids in `tasks` are
pairwise distinct and strictly less than `next_id`, and `next_id` never
decreases across any further operation. -/
theorem C1_reachable_invariants (ops : List Op) (op : Op) :
    wf (run ops) = true ∧
    (run ops).next_id ≤ (applyOp (run ops) op).next_id := by
  refine ⟨(wf_iff _).mpr (WFP_foldl ops default_document WFP_default), ?_⟩
  rw [applyOp_next_id]
  split <;> omega

/-- C2: `add_task` on a stored document builds the task from the current
`next_id`, the description exactly as given, `completed = false` and the
creation timestamp, appends it at the end of `tasks`, increments `next_id`
by exactly 1, saves the updated document, and returns the created task. -/
theorem C2_add_task (description now : String) (d : Document) :
    run_op (add_task description now) (some (documentToJson d)) =
      some (⟨d.next_id, description, false, now⟩,
        some (documentToJson
          ⟨d.tasks ++ [⟨d.next_id, description, false, now⟩],
           d.next_id + 1⟩)) ∧
    (add_task description now d).saved = true := by
  rw [run_op_documentToJson]
  exact ⟨rfl, rfl⟩

/-- C3: `complete_task` marks the first task whose id matches exactly, saves
and returns true; when no task matches (id zero, negative, or never
assigned) it returns false, calls no save, and the stored file is
unchanged. -/
theorem C3_complete_task (task_id : Int) (d : Document) :
    ((∀ t ∈ d.tasks, t.id ≠ task_id) →
      run_op (complete_task task_id) (some (documentToJson d)) =
        some (false, some (documentToJson d)) ∧
      (complete_task task_id d).saved = false) ∧
    (∀ p t s, d.tasks = p ++ t :: s → (∀ u ∈ p, u.id ≠ task_id) →
      t.id = task_id →
      run_op (complete_task task_id) (some (documentToJson d)) =
        some (true, some (documentToJson
          ⟨p ++ { t with completed := true } :: s, d.next_id⟩))) := by
  constructor
  · intro h
    have hm : markFirst task_id d.tasks = none :=
      markFirst_eq_none task_id d.tasks fun t ht => by simpa using h t ht
    rw [run_op_documentToJson]
    simp [complete_task, hm]
  · intro p t s hsplit hp ht
    have hm : markFirst task_id d.tasks =
        some (p ++ { t with completed := true } :: s) := by
      rw [hsplit]
      exact markFirst_append task_id p t s
        (fun u hu => by simpa using hp u hu) (by simpa using ht)
    rw [run_op_documentToJson]
    simp [complete_task, hm]

theorem C3_complete_task_witness :
    run_op (complete_task 1)
        (some (documentToJson ⟨[⟨1, "a", false, "t"⟩], 2⟩)) =
      some (true, some (documentToJson ⟨[⟨1, "a", true, "t"⟩], 2⟩)) :=
  (C3_complete_task 1 ⟨[⟨1, "a", false, "t"⟩], 2⟩).2 [] ⟨1, "a", false, "t"⟩ []
    rfl (by simp) rfl

/-- C4: `delete_task` removes exactly the tasks whose id matches, keeping
the remaining tasks in their relative order; when the collection shrank it
saves the shrunk document and returns true, otherwise it returns false,
calls no save, and the stored file is unchanged. -/
theorem C4_delete_task (task_id : Int) (d : Document) :
    (d.tasks.filter (fun t => t.id != task_id)).Sublist d.tasks ∧
    (∀ t ∈ d.tasks.filter (fun t => t.id != task_id), t.id ≠ task_id) ∧
    (∀ t ∈ d.tasks, t.id ≠ task_id →
      t ∈ d.tasks.filter (fun t => t.id != task_id)) ∧
    ((∃ t ∈ d.tasks, t.id = task_id) →
      run_op (delete_task task_id) (some (documentToJson d)) =
        some (true, some (documentToJson
          ⟨d.tasks.filter (fun t => t.id != task_id), d.next_id⟩))) ∧
    ((∀ t ∈ d.tasks, t.id ≠ task_id) →
      run_op (delete_task task_id) (some (documentToJson d)) =
        some (false, some (documentToJson d)) ∧
      (delete_task task_id d).saved = false) := by
  refine ⟨List.filter_sublist _, ?_, ?_, ?_, ?_⟩
  · intro t ht
    simpa using (List.mem_filter.mp ht).2
  · intro t ht hne
    exact List.mem_filter.mpr ⟨ht, by simpa using hne⟩
  · rintro ⟨t, ht, rfl⟩
    have hlt :
        (d.tasks.filter (fun u => u.id != t.id)).length < d.tasks.length :=
      (filter_length_lt_iff t.id d.tasks).mpr
        (List.any_eq_true.mpr ⟨t, ht, by simp⟩)
    have hdel : delete_task t.id d =
        ⟨true, ⟨d.tasks.filter (fun u => u.id != t.id), d.next_id⟩, true⟩ := by
      simp only [delete_task]
      rw [if_pos hlt]
    rw [run_op_documentToJson, hdel]
    rfl
  · intro h
    have hall : d.tasks.filter (fun t => t.id != task_id) = d.tasks :=
      List.filter_eq_self.mpr fun t ht => by simpa using h t ht
    have hnlt : ¬ (d.tasks.filter (fun t => t.id != task_id)).length <
        d.tasks.length := by
      rw [hall]
      omega
    have hdel : delete_task task_id d = ⟨false, d, false⟩ := by
      simp only [delete_task]
      rw [if_neg hnlt]
    rw [run_op_documentToJson, hdel]
    exact ⟨rfl, rfl⟩

theorem C4_delete_task_witness :
    run_op (delete_task 1)
        (some (documentToJson
          ⟨[⟨1, "a", false, "t"⟩, ⟨2, "b", false, "u"⟩], 3⟩)) =
      some (true, some (documentToJson ⟨[⟨2, "b", false, "u"⟩], 3⟩)) :=
  (C4_delete_task 1 ⟨[⟨1, "a", false, "t"⟩, ⟨2, "b", false, "u"⟩], 3⟩).2.2.2.1
    ⟨⟨1, "a", false, "t"⟩, by simp, rfl⟩

/-- C5: a missing file loads as the default document, without error or
warning; a parse failure, or a parsed value that is not a dict or lacks the
`tasks` or `next_id` key, loads as the default document with a non-fatal
warning and without raising; the default document is
`{tasks: [], next_id: 1}`. -/
theorem C5_load_fallback (j : Json) :
    load_data .missing = .ok (false, _get_default_data) ∧
    load_data .parseError = .ok (true, _get_default_data) ∧
    (valid_shape j = false →
      load_data (.parsed j) = .ok (true, _get_default_data)) ∧
    jsonToDocument _get_default_data = some default_document := by
  refine ⟨rfl, rfl, ?_, rfl⟩
  intro h
  simp [load_data, h]

theorem C5_load_fallback_witness :
    load_data (.parsed (.num 0)) = .ok (true, _get_default_data) :=
  (C5_load_fallback (.num 0)).2.2.1 rfl

/-- C6: saving a well-formed document and loading it back yields a document
equal to the one saved: the save succeeds with exactly the serialized
document in the file, the load returns that value verbatim without warning,
and it decodes back to the original document. -/
theorem C6_round_trip (d : Document) :
    save_data .ok (documentToJson d) = .ok (documentToJson d) ∧
    load_data (.parsed (documentToJson d)) = .ok (false, documentToJson d) ∧
    jsonToDocument (documentToJson d) = some d :=
  ⟨rfl, load_data_parsed_documentToJson d, jsonToDocument_documentToJson d⟩

/-- C7: after any sequence of operations from the default document,
`next_id` equals 1 plus the number of adds performed, each add receives an
id equal to 1 plus the number of adds before it (so the i-th add gets id i,
deletes notwithstanding), and an add issued after an earlier add — whatever
happened in between, including deleting that task — always receives a
strictly larger id, so a deleted id is never reused. -/
theorem C7_id_monotonicity (ops p1 p2 : List Op) (d1 n1 d2 n2 : String) :
    (run ops).next_id = 1 + (countAdds ops : Int) ∧
    (add_task d1 n1 (run p1)).ret.id = 1 + (countAdds p1 : Int) ∧
    (add_task d1 n1 (run p1)).ret.id <
      (add_task d2 n2 (run (p1 ++ Op.add d1 n1 :: p2))).ret.id := by
  have hrun : ∀ l : List Op, (run l).next_id = 1 + (countAdds l : Int) := by
    intro l
    rw [run, next_id_foldl]
    rfl
  have hcount : countAdds (p1 ++ Op.add d1 n1 :: p2) =
      countAdds p1 + countAdds p2 + 1 := by
    simp [countAdds, List.countP_append, List.countP_cons, isAdd]
    omega
  refine ⟨hrun ops, hrun p1, ?_⟩
  show (run p1).next_id < (run (p1 ++ Op.add d1 n1 :: p2)).next_id
  rw [hrun, hrun, hcount]
  push_cast
  omega

/-- C8: a permission failure during load or save is surfaced to the caller
as `PermissionDenied`, and any other I/O failure is surfaced as a fatal
read or write error; neither is swallowed or replaced by the default
document. -/
theorem C8_error_propagation (j : Json) :
    load_data .permissionDenied = .error .permissionDenied ∧
    load_data .ioError = .error .readFailure ∧
    save_data .permissionDenied j = .error .permissionDenied ∧
    save_data .ioError j = .error .writeFailure :=
  ⟨rfl, rfl, rfl, rfl⟩

/-- C9: every observable file-system state during a save — including after a
crash part-way through writing the temporary file — shows the canonical
file holding either the previous content in full or the new content in
full, never a half-written mix; the write happens on the temporary sibling
file and lands on the canonical path only through the atomic rename. -/
theorem C9_atomic_save (old : Option Json) (j : Json) (s : FSState)
    (h : s ∈ save_trace old j) :
    s.canonical = old ∨ s.canonical = some j := by
  simp only [save_trace, List.mem_cons, List.not_mem_nil, or_false] at h
  rcases h with rfl | rfl | rfl | rfl
  · exact .inl rfl
  · exact .inl rfl
  · exact .inl rfl
  · exact .inr rfl

theorem C9_atomic_save_witness :
    (⟨none, none⟩ : FSState).canonical = none ∨
    (⟨none, none⟩ : FSState).canonical = some (.num 1) :=
  C9_atomic_save none (.num 1) ⟨none, none⟩ (by simp [save_trace])

/-- C10: against one and the same stored document, the three lookups agree
on presence: `get_task` finds a task exactly when `complete_task` returns
true, exactly when `delete_task` returns true. -/
theorem C10_presence_agreement (task_id : Int) (d : Document) :
    (get_task task_id d).isSome = (complete_task task_id d).ret ∧
    (complete_task task_id d).ret = (delete_task task_id d).ret := by
  rw [get_task_isSome, complete_task_ret, delete_task_ret]
  exact ⟨rfl, rfl⟩

end Todo
